import Mathlib

/-!
Shallow embedding of the AQI dashboard (`src/app.py`): the MQTT mailbox
(`MQTTService`), the live poller (`show_live_monitor`), the severity
classifier, the rolling history buffer, the Supabase fetch
(`get_historical_data`) and the timestamp normalization of `show_history`.
Numbers carried by JSON payloads are modelled as integers; the claims under
study only exercise integer values.
-/

namespace Aqi

/-- A Python/JSON value as it can appear in a field of an MQTT payload after
`json.loads`: an integer, a string, or `null`.  These are the cases the
claims exercise. -/
inductive PyVal where
  | vInt : Int → PyVal
  | vStr : String → PyVal
  | vNull : PyVal
deriving DecidableEq, Repr

/-- The parsed MQTT payload as seen through the four keys the app reads
(`aqi`, `temperature`, `humidity`, `mq135`); `none` models a missing key.
`MQTTService.on_message` stores such a payload whole into `latest_data`. -/
structure Payload where
  aqi : Option PyVal
  temperature : Option PyVal
  humidity : Option PyVal
  mq135 : Option PyVal
deriving DecidableEq, Repr

/-- One entry of `st.session_state["live_history"]`:
`{"Timestamp": current_time, "aqi": aqi, "mq135": mq135_val}` (app.py 131-135).
`aqi` went through `int(...)`; `mq135` is stored as fetched. -/
structure HistEntry where
  ts : String
  aqi : Int
  mq135 : PyVal
deriving DecidableEq, Repr

/-- The application state the claims talk about: the mailbox slot
`MQTTService.latest_data`, the flag `is_connected`, and the session list
`st.session_state["live_history"]`. -/
structure AppState where
  latest_data : Payload
  is_connected : Bool
  live_history : List HistEntry
deriving DecidableEq, Repr

/-- `data.get(key, 0)` (app.py 120-123): the stored value when the key is
present, the integer `0` otherwise. -/
def pyGet (field : Option PyVal) : PyVal :=
  field.getD (.vInt 0)

/-- Value of a decimal digit run, accumulator style; `none` as soon as a
non-digit character appears. -/
def digitsAux : List Char → Nat → Option Nat
  | [], acc => some acc
  | c :: cs, acc =>
    if '0' ≤ c ∧ c ≤ '9' then digitsAux cs (acc * 10 + (c.toNat - '0'.toNat)) else none

/-- Python `int(str)` on a trimmed literal: an optional minus sign followed
by at least one decimal digit; anything else raises `ValueError`, modelled
as `none`. -/
def pyIntOfString (s : String) : Option Int :=
  match s.data with
  | [] => none
  | '-' :: [] => none
  | '-' :: c :: cs => (digitsAux (c :: cs) 0).map fun n => -(n : Int)
  | cs => (digitsAux cs 0).map fun n => (n : Int)

/-- Python `int(x)` on our values: identity on integers, decimal parse on
strings (`int("abc")` raises `ValueError`, modelled as `none`), and a
`TypeError` (`none`) on `null`. -/
def pyToInt : PyVal → Option Int
  | .vInt n => some n
  | .vStr s => pyIntOfString s
  | .vNull => none

/-- Python `x > 0` on our values: defined on integers, a `TypeError`
(modelled as `none`) on strings and `null`. -/
def pyGtZero : PyVal → Option Bool
  | .vInt n => some (decide (0 < n))
  | .vStr _ => none
  | .vNull => none

/-- The mailbox as initialised by `MQTTService.__init__` (app.py 60):
`{"aqi": 0, "temperature": 0, "humidity": 0, "mq135": 0}`. -/
def initSlot : Payload :=
  ⟨some (.vInt 0), some (.vInt 0), some (.vInt 0), some (.vInt 0)⟩

/-- State at session start: fresh mailbox, not yet connected, empty
`live_history` (app.py 112-113). -/
def initialState : AppState :=
  ⟨initSlot, false, []⟩

/-- An inbound MQTT message, represented by the outcome of
`json.loads(msg.payload.decode())`: `some p` when it parses to a payload
object, `none` when decoding or parsing raises. -/
structure Msg where
  parse : Option Payload
deriving DecidableEq, Repr

/-- `MQTTService.on_message` (app.py 79-87): on a successful parse the
payload replaces `latest_data`; an exception is caught and the state is left
untouched. -/
def on_message (s : AppState) (m : Msg) : AppState :=
  match m.parse with
  | some p => { s with latest_data := p }
  | none => s

/-- The severity classifier of `show_live_monitor` (app.py 142-147): the
cascade of `aqi <= bound` tests mapping an AQI to a status label and a
display color. -/
def classify (aqi : Int) : String × String :=
  if aqi ≤ 50 then ("Good", "#00e400")
  else if aqi ≤ 100 then ("Moderate", "#ffff00")
  else if aqi ≤ 150 then ("Poor", "#ff7e00")
  else if aqi ≤ 200 then ("Unhealthy", "#ff0000")
  else if aqi ≤ 300 then ("Very Unhealthy", "#8f3f97")
  else ("Hazardous", "#7e0023")

/-- One update of `st.session_state["live_history"]` by the poller
(app.py 130-139): conditionally append the sample, then `pop(0)` when the
length exceeds 50. `inp = some e` means the meaningful-sample filter passed
with entry `e`; `inp = none` means it did not. -/
def historyStep (hist : List HistEntry) (inp : Option HistEntry) : List HistEntry :=
  let h := match inp with
    | some e => hist ++ [e]
    | none => hist
  if 50 < h.length then h.drop 1 else h

/-- One invocation of the `show_live_monitor` fragment body, restricted to
its state effects (app.py 116-139): snapshot the mailbox, convert
`aqi` with `int(...)` (which can raise), evaluate the short-circuit test
`aqi > 0 or mq135_val > 0` (whose right side can raise a `TypeError`), and
update `live_history` accordingly.  `none` models an uncaught exception,
i.e. a hard failure of the live view. -/
def pollerStep (s : AppState) (now : String) : Option AppState :=
  match pyToInt (pyGet s.latest_data.aqi) with
  | none => none
  | some aqi =>
    match (if 0 < aqi then some true else pyGtZero (pyGet s.latest_data.mq135)) with
    | none => none
    | some cond =>
      let inp : Option HistEntry :=
        if cond then some ⟨now, aqi, pyGet s.latest_data.mq135⟩ else none
      some { s with live_history := historyStep s.live_history inp }

/-- The poller's read of the mailbox (app.py 118-123): `aqi` through
`int(data.get("aqi", 0))`, the other three straight from `data.get(k, 0)`.
`none` models the `int` conversion raising. -/
def readSlot (p : Payload) : Option (Int × PyVal × PyVal × PyVal) :=
  (pyToInt (pyGet p.aqi)).map fun a =>
    (a, pyGet p.temperature, pyGet p.humidity, pyGet p.mq135)

/-- A payload field that is absent or carries an integer, as the push-topic
interface prescribes (JSON object with numeric values). -/
def isNumField : Option PyVal → Bool
  | none => true
  | some (.vInt _) => true
  | some (.vStr _) => false
  | some .vNull => false

/-- All four fields of a payload are absent-or-numeric. -/
def numericFields (p : Payload) : Bool :=
  isNumField p.aqi && isNumField p.temperature && isNumField p.humidity && isNumField p.mq135

/-- A civil date-time (year-month-day hour:minute:second), the content of a
well-formed timestamp string. -/
structure DateTime where
  year : Nat
  month : Nat
  day : Nat
  hour : Nat
  minute : Nat
  second : Nat
deriving DecidableEq, Repr

/-- Days from 1970-01-01 to the given civil date (proleptic Gregorian
calendar, valid for year ≥ 1). -/
def daysFromCivil (y m d : Nat) : Int :=
  let y2 := if m ≤ 2 then y - 1 else y
  let era := y2 / 400
  let yoe := y2 - era * 400
  let doy := (153 * (if 2 < m then m - 3 else m + 9) + 2) / 5 + d - 1
  let doe := yoe * 365 + yoe / 4 - yoe / 100 + doy
  (era * 146097 + doe : Int) - 719468

/-- Seconds from the Unix epoch to this civil date-time read as UTC. -/
def DateTime.toEpoch (dt : DateTime) : Int :=
  daysFromCivil dt.year dt.month dt.day * 86400
    + dt.hour * 3600 + dt.minute * 60 + dt.second

/-- A timestamp string as found in the `created_at` column: a naive
date-time, a UTC-suffixed (`Z`) date-time, or an unparseable string. -/
inductive TsStr where
  | naive : DateTime → TsStr
  | zulu : DateTime → TsStr
  | junk : String → TsStr
deriving DecidableEq, Repr

/-- `pd.to_datetime(col, utc=True, errors="coerce")` on one cell
(app.py 201): a parseable timestamp becomes a UTC instant — a naive one is
treated as UTC — and an unparseable one becomes `NaT` (`none`). -/
def to_datetime_utc : TsStr → Option Int
  | .naive dt => some dt.toEpoch
  | .zulu dt => some dt.toEpoch
  | .junk _ => none

/-- UTC offset of the display timezone `Asia/Kolkata` (UTC+5:30), in
seconds. -/
def kolkataOffset : Int := 19800

/-- `dt.tz_convert("Asia/Kolkata")` (app.py 206): the wall-clock of the
instant in the display timezone, as seconds since the epoch of that wall
clock read as UTC. -/
def toLocalWall (instant : Int) : Int := instant + kolkataOffset

/-- Time of day, in seconds, of a wall-clock value. -/
def secondsOfDay (t : Int) : Int := t % 86400

/-- A row of the Supabase `sensor_data` table as the dashboard uses it:
the synthetic key `id`, the `created_at` timestamp and the sensor columns. -/
structure SbRow where
  id : Nat
  created_at : TsStr
  aqi : Int
  temperature : Int
  humidity : Int
deriving DecidableEq, Repr

/-- The timestamp pipeline of `show_history` (app.py 200-208): parse each
row's `created_at` with `utc=True, errors="coerce"`, drop the rows whose
parse failed (`dropna`), and convert the survivors to the `Asia/Kolkata`
wall clock.  Each surviving row is paired with its local wall-clock. -/
def normalizeRows (rows : List SbRow) : List (SbRow × Int) :=
  rows.filterMap fun r => (to_datetime_utc r.created_at).map fun t => (r, toLocalWall t)

/-- Outcome of `supabase...execute()` (app.py 97) for a given limit: the
call raises, returns a response without a usable `data` attribute, or
returns a response with a (possibly empty) list of rows. -/
inductive ExecOutcome where
  | raises : ExecOutcome
  | noData : ExecOutcome
  | withData : List SbRow → ExecOutcome
deriving DecidableEq, Repr

/-- `get_historical_data` (app.py 95-102): run the query; if the response
has a truthy `data`, return it; otherwise, and on any exception, return
`[]`.  The store is modelled as a function from the limit to the outcome of
the query. -/
def get_historical_data (store : Nat → ExecOutcome) (limit : Nat) : List SbRow :=
  match store limit with
  | .raises => []
  | .noData => []
  | .withData rows => if rows.isEmpty then [] else rows

/-- Two successive calls of `get_historical_data` against the same store
state (no intervening writes). -/
def fetchTwice (store : Nat → ExecOutcome) (limit : Nat) : List SbRow × List SbRow :=
  (get_historical_data store limit, get_historical_data store limit)

/-- A concrete store whose query succeeds with one row, for instantiating
the fetch theorems. -/
def storeEx : Nat → ExecOutcome :=
  fun _ => .withData [⟨1, .zulu ⟨2024, 1, 1, 0, 0, 0⟩, 42, 25, 60⟩]

/-- Fifty-one distinct samples, for instantiating the rolling-buffer
theorems. -/
def es51 : List HistEntry :=
  (List.range 51).map fun i => ⟨toString i, (i : Int), .vInt 0⟩

/-- A one-message delivery sequence whose payload only carries `aqi`, for
instantiating the mailbox theorems. -/
def msgsEx : List Msg :=
  [⟨some ⟨some (.vInt 7), none, none, none⟩⟩]

/-- The sample the poller hands to the buffer when the meaningful-sample
filter `aqi > 0 or mq135_val > 0` passes on a numeric snapshot, `none`
when it does not. -/
def condEntry (a m : Int) (now : String) : Option HistEntry :=
  if 0 < a ∨ 0 < m then some ⟨now, a, .vInt m⟩ else none

/- ================= theorems ================= -/

theorem isNumField_cases (f : Option PyVal) (h : isNumField f = true) :
    f = none ∨ ∃ n : Int, f = some (.vInt n) := by
  cases f with
  | none => exact Or.inl rfl
  | some v =>
    cases v with
    | vInt n => exact Or.inr ⟨n, rfl⟩
    | vStr s => simp [isNumField] at h
    | vNull => simp [isNumField] at h

/-- C1: the severity classifier partitions the non-negative integers into
the six buckets with inclusive upper bounds 50, 100, 150, 200, 300, ∞,
pairs each with its fixed color, always lands in one of the six, and maps
the ten boundary values as the spec lists them. -/
theorem c1 (aqi : Int) (h : 0 ≤ aqi) :
    (aqi ≤ 50 → classify aqi = ("Good", "#00e400")) ∧
    (50 < aqi → aqi ≤ 100 → classify aqi = ("Moderate", "#ffff00")) ∧
    (100 < aqi → aqi ≤ 150 → classify aqi = ("Poor", "#ff7e00")) ∧
    (150 < aqi → aqi ≤ 200 → classify aqi = ("Unhealthy", "#ff0000")) ∧
    (200 < aqi → aqi ≤ 300 → classify aqi = ("Very Unhealthy", "#8f3f97")) ∧
    (300 < aqi → classify aqi = ("Hazardous", "#7e0023")) ∧
    (classify aqi = ("Good", "#00e400") ∨ classify aqi = ("Moderate", "#ffff00") ∨
      classify aqi = ("Poor", "#ff7e00") ∨ classify aqi = ("Unhealthy", "#ff0000") ∨
      classify aqi = ("Very Unhealthy", "#8f3f97") ∨ classify aqi = ("Hazardous", "#7e0023")) ∧
    (classify 50 = ("Good", "#00e400") ∧ classify 51 = ("Moderate", "#ffff00") ∧
      classify 100 = ("Moderate", "#ffff00") ∧ classify 101 = ("Poor", "#ff7e00") ∧
      classify 150 = ("Poor", "#ff7e00") ∧ classify 151 = ("Unhealthy", "#ff0000") ∧
      classify 200 = ("Unhealthy", "#ff0000") ∧ classify 201 = ("Very Unhealthy", "#8f3f97") ∧
      classify 300 = ("Very Unhealthy", "#8f3f97") ∧ classify 301 = ("Hazardous", "#7e0023")) := by
  refine ⟨?_, ?_, ?_, ?_, ?_, ?_, ?_, by decide⟩ <;>
    first
    | (intro h1
       unfold classify
       split_ifs <;> first | rfl | omega)
    | (intro h1 h2
       unfold classify
       split_ifs <;> first | rfl | omega)
    | (unfold classify
       split_ifs <;> simp)

theorem c1_witness : classify 75 = ("Moderate", "#ffff00") :=
  (c1 75 (by decide)).2.1 (by decide) (by decide)

/-- C5: whatever the store does — raise, return a response without a data
attribute, or return an empty result — `get_historical_data` returns `[]`;
when the store returns non-empty rows, it returns exactly those rows.  The
function is total, so no store behavior makes it raise to its caller. -/
theorem c5 (store : Nat → ExecOutcome) (limit : Nat) :
    (store limit = .raises → get_historical_data store limit = []) ∧
    (store limit = .noData → get_historical_data store limit = []) ∧
    (store limit = .withData [] → get_historical_data store limit = []) ∧
    (∀ rows : List SbRow, rows ≠ [] → store limit = .withData rows →
      get_historical_data store limit = rows) := by
  refine ⟨fun h => by simp [get_historical_data, h], fun h => by simp [get_historical_data, h],
    fun h => by simp [get_historical_data, h], fun rows hne h => ?_⟩
  simp [get_historical_data, h, hne]

theorem c5_witness :
    get_historical_data storeEx 200 = [⟨1, .zulu ⟨2024, 1, 1, 0, 0, 0⟩, 42, 25, 60⟩] :=
  (c5 storeEx 200).2.2.2 _ (by decide) rfl

/-- C8: the listener callback `on_message` only ever touches the mailbox
slot: the rolling history buffer and the connection flag are unchanged by
every delivery. -/
theorem c8 (s : AppState) (m : Msg) :
    (on_message s m).live_history = s.live_history ∧
    (on_message s m).is_connected = s.is_connected := by
  cases hp : m.parse <;> simp [on_message, hp]

/-- C9: with a fixed store state and a fixed limit, two successive calls of
`get_historical_data` with no intervening writes return identical ordered
row sequences. -/
theorem c9 (store : Nat → ExecOutcome) (limit : Nat) :
    (fetchTwice store limit).1 = (fetchTwice store limit).2 := rfl

/-- C10: a message whose payload fails to parse as JSON leaves the whole
state — in particular the mailbox slot — exactly as it was, and the
initial all-zero slot reads back as a complete reading, so the listener
never crashes and the slot stays readable. -/
theorem c10 :
    (∀ (s : AppState) (m : Msg), m.parse = none → on_message s m = s) ∧
    readSlot initialState.latest_data = some (0, .vInt 0, .vInt 0, .vInt 0) := by
  refine ⟨fun s m h => ?_, by decide⟩
  simp [on_message, h]

theorem c10_witness : on_message initialState ⟨none⟩ = initialState :=
  c10.1 initialState ⟨none⟩ rfl

theorem numericFields_on_message (s : AppState) (m : Msg)
    (hs : numericFields s.latest_data = true)
    (hm : ∀ p, m.parse = some p → numericFields p = true) :
    numericFields (on_message s m).latest_data = true := by
  cases hp : m.parse with
  | none => simpa [on_message, hp] using hs
  | some p => simpa [on_message, hp] using hm p hp

theorem numericFields_foldl (msgs : List Msg) :
    ∀ s : AppState, numericFields s.latest_data = true →
      (∀ m ∈ msgs, ∀ p, m.parse = some p → numericFields p = true) →
      numericFields ((List.foldl on_message s msgs)).latest_data = true := by
  induction msgs with
  | nil => intro s hs _; simpa using hs
  | cons m ms ih =>
    intro s hs hok
    simp only [List.foldl_cons]
    exact ih _ (numericFields_on_message s m hs (hok m (by simp)))
      (fun m2 hm2 => hok m2 (by simp [hm2]))

theorem numField_get (f : Option PyVal) (h : isNumField f = true) :
    ∃ n : Int, pyGet f = .vInt n ∧ (f = none → n = 0) := by
  rcases isNumField_cases f h with rfl | ⟨n, rfl⟩
  · exact ⟨0, rfl, fun _ => rfl⟩
  · exact ⟨n, rfl, fun hc => Option.noConfusion hc⟩

theorem readSlot_numeric (p : Payload) (hp : numericFields p = true) :
    ∃ a t h m : Int, readSlot p = some (a, .vInt t, .vInt h, .vInt m) ∧
      (p.aqi = none → a = 0) ∧ (p.temperature = none → t = 0) ∧
      (p.humidity = none → h = 0) ∧ (p.mq135 = none → m = 0) := by
  unfold numericFields at hp
  rw [Bool.and_eq_true, Bool.and_eq_true, Bool.and_eq_true] at hp
  obtain ⟨⟨⟨h1, h2⟩, h3⟩, h4⟩ := hp
  obtain ⟨a, ha, ha0⟩ := numField_get p.aqi h1
  obtain ⟨t, ht, ht0⟩ := numField_get p.temperature h2
  obtain ⟨hh, hhu, hh0⟩ := numField_get p.humidity h3
  obtain ⟨m, hm, hm0⟩ := numField_get p.mq135 h4
  exact ⟨a, t, hh, m, by simp [readSlot, ha, ht, hhu, hm, pyToInt], ha0, ht0, hh0, hm0⟩

/-- C2: after any sequence of deliveries whose parsed payloads carry
absent-or-numeric fields (the push-topic interface), the poller's read of
the mailbox slot yields a complete four-field reading, with 0 substituted
for every field absent from the stored payload. -/
theorem c2 (msgs : List Msg)
    (hok : ∀ m ∈ msgs, ∀ p, m.parse = some p → numericFields p = true) :
    ∃ a t h mq : Int,
      readSlot (List.foldl on_message initialState msgs).latest_data
        = some (a, .vInt t, .vInt h, .vInt mq) ∧
      ((List.foldl on_message initialState msgs).latest_data.aqi = none → a = 0) ∧
      ((List.foldl on_message initialState msgs).latest_data.temperature = none → t = 0) ∧
      ((List.foldl on_message initialState msgs).latest_data.humidity = none → h = 0) ∧
      ((List.foldl on_message initialState msgs).latest_data.mq135 = none → mq = 0) :=
  readSlot_numeric _ (numericFields_foldl msgs initialState (by decide) hok)

theorem c2_witness :
    ∃ a t h mq : Int,
      readSlot (List.foldl on_message initialState msgsEx).latest_data
        = some (a, .vInt t, .vInt h, .vInt mq) ∧
      ((List.foldl on_message initialState msgsEx).latest_data.aqi = none → a = 0) ∧
      ((List.foldl on_message initialState msgsEx).latest_data.temperature = none → t = 0) ∧
      ((List.foldl on_message initialState msgsEx).latest_data.humidity = none → h = 0) ∧
      ((List.foldl on_message initialState msgsEx).latest_data.mq135 = none → mq = 0) :=
  c2 msgsEx (by
    intro m hm p hp
    simp only [msgsEx, List.mem_singleton] at hm
    subst hm
    simp only [Msg.mk.injEq] at hp
    rw [Option.some.injEq] at hp
    subst hp
    decide)

theorem historyStep_length_le (hist : List HistEntry) (inp : Option HistEntry)
    (h : hist.length ≤ 50) : (historyStep hist inp).length ≤ 50 := by
  unfold historyStep
  cases inp with
  | none =>
    dsimp
    split_ifs with hc
    · simp only [List.length_drop]
      omega
    · exact h
  | some e =>
    dsimp
    split_ifs with hc
    · simp only [List.length_drop, List.length_append, List.length_cons, List.length_nil]
      omega
    · simp only [List.length_append, List.length_cons, List.length_nil] at hc ⊢
      omega

theorem foldl_historyStep_length_le (inps : List (Option HistEntry)) :
    ∀ hist : List HistEntry, hist.length ≤ 50 →
      (List.foldl historyStep hist inps).length ≤ 50 := by
  induction inps with
  | nil => intro hist h; simpa using h
  | cons i is ih =>
    intro hist h
    simpa using ih _ (historyStep_length_le hist i h)

theorem historyStep_append (hist : List HistEntry) (e : HistEntry)
    (h : hist.length ≤ 49) : historyStep hist (some e) = hist ++ [e] := by
  unfold historyStep
  dsimp
  rw [if_neg]
  simp only [List.length_append, List.length_cons, List.length_nil]
  omega

theorem foldl_historyStep_overflow (es : List HistEntry) :
    ∀ hist : List HistEntry, hist.length + es.length = 51 → es ≠ [] →
      List.foldl historyStep hist (es.map some) = (hist ++ es).drop 1 := by
  induction es with
  | nil => intro hist _ hne; exact absurd rfl hne
  | cons e es ih =>
    intro hist hlen _
    simp only [List.map_cons, List.foldl_cons]
    cases es with
    | nil =>
      simp only [List.map_nil, List.foldl_nil]
      unfold historyStep
      dsimp
      have hc : 50 < (hist ++ [e]).length := by
        simp only [List.length_cons, List.length_nil] at hlen
        simp only [List.length_append, List.length_cons, List.length_nil]
        omega
      rw [if_pos hc]
    | cons e2 es2 =>
      have hsmall : hist.length ≤ 49 := by
        simp only [List.length_cons] at hlen
        omega
      rw [historyStep_append hist e hsmall,
        ih (hist ++ [e]) (by simp at hlen ⊢; omega) (by simp)]
      simp

/-- C3: the rolling history buffer never exceeds 50 entries — a successful
poller invocation preserves the bound, and any input sequence starting from
the empty buffer stays within it — and feeding exactly 51 samples leaves
exactly the last 50, the first sample evicted and samples 2–51 kept in
their original order. -/
theorem c3 :
    (∀ (s : AppState) (now : String) (s2 : AppState),
        pollerStep s now = some s2 → s.live_history.length ≤ 50 →
          s2.live_history.length ≤ 50) ∧
    (∀ inps : List (Option HistEntry),
        (List.foldl historyStep [] inps).length ≤ 50) ∧
    (∀ es : List HistEntry, es.length = 51 →
        List.foldl historyStep [] (es.map some) = es.drop 1 ∧
        (List.foldl historyStep [] (es.map some)).length = 50) := by
  refine ⟨?_, fun inps => foldl_historyStep_length_le inps [] (by simp), ?_⟩
  · intro s now s2 hstep hlen
    unfold pollerStep at hstep
    split at hstep
    · exact Option.noConfusion hstep
    · split at hstep
      · exact Option.noConfusion hstep
      · rw [Option.some.injEq] at hstep
        subst hstep
        exact historyStep_length_le _ _ hlen
  · intro es h51
    have hne : es ≠ [] := by
      rintro rfl
      simp at h51
    have hmain : List.foldl historyStep [] (es.map some) = es.drop 1 := by
      simpa using foldl_historyStep_overflow es [] (by simpa using h51) hne
    refine ⟨hmain, ?_⟩
    rw [hmain, List.length_drop, h51]

theorem c3_witness :
    es51.length = 51 ∧ List.foldl historyStep [] (es51.map some) = es51.drop 1 :=
  ⟨by rfl, (c3.2.2 es51 (by rfl)).1⟩

theorem historyStep_getLast (hist : List HistEntry) (e : HistEntry) :
    (historyStep hist (some e)).getLast? = some e := by
  unfold historyStep
  dsimp
  split_ifs with hc
  · cases hist with
    | nil => simp at hc
    | cons x xs => simp [List.cons_append, List.getLast?_concat]
  · simp [List.getLast?_concat]

theorem pollerStep_reduce (s : AppState) (a m : Int) (now : String)
    (ha : s.latest_data.aqi = some (.vInt a))
    (hm : s.latest_data.mq135 = some (.vInt m)) :
    pollerStep s now
      = some { s with live_history := historyStep s.live_history (condEntry a m now) } := by
  unfold pollerStep condEntry
  rw [ha, hm]
  by_cases hpa : 0 < a
  · simp [pyGet, pyToInt, pyGtZero, hpa]
  · by_cases hpm : 0 < m <;> simp [pyGet, pyToInt, pyGtZero, hpa, hpm]

/-- C4: given a numeric mailbox snapshot, a poller invocation appends a
sample to the rolling buffer exactly when aqi > 0 or mq135 > 0: with both
at zero or below, the state is returned unchanged; with aqi = 0 and
mq135 = 5, the sample becomes the new last entry of the buffer. -/
theorem c4 (s : AppState) (a m : Int) (now : String)
    (ha : s.latest_data.aqi = some (.vInt a))
    (hm : s.latest_data.mq135 = some (.vInt m))
    (hlen : s.live_history.length ≤ 50) :
    (0 < a ∨ 0 < m →
      pollerStep s now
        = some { s with live_history := historyStep s.live_history (some ⟨now, a, .vInt m⟩) }) ∧
    (¬(0 < a ∨ 0 < m) → pollerStep s now = some s) ∧
    (a = 0 → m = 5 → ∃ s2, pollerStep s now = some s2 ∧
      s2.live_history = historyStep s.live_history (some ⟨now, 0, .vInt 5⟩) ∧
      s2.live_history.getLast? = some ⟨now, 0, .vInt 5⟩) := by
  have hred := pollerStep_reduce s a m now ha hm
  refine ⟨fun hcond => ?_, fun hcond => ?_, fun ha0 hm5 => ?_⟩
  · rw [hred]
    unfold condEntry
    rw [if_pos hcond]
  · rw [hred]
    unfold condEntry
    rw [if_neg hcond]
    have hid : historyStep s.live_history none = s.live_history := by
      unfold historyStep
      dsimp
      rw [if_neg (by omega)]
    rw [hid]
  · refine ⟨{ s with live_history := historyStep s.live_history (some ⟨now, 0, .vInt 5⟩) },
      ?_, rfl, historyStep_getLast s.live_history _⟩
    rw [hred, ha0, hm5]
    unfold condEntry
    norm_num

theorem c4_witness :
    ∃ s2,
      pollerStep ⟨⟨some (.vInt 0), none, none, some (.vInt 5)⟩, false, []⟩ "10:00:00" = some s2 ∧
      s2.live_history = historyStep [] (some ⟨"10:00:00", 0, .vInt 5⟩) ∧
      s2.live_history.getLast? = some ⟨"10:00:00", 0, .vInt 5⟩ :=
  (c4 ⟨⟨some (.vInt 0), none, none, some (.vInt 5)⟩, false, []⟩ 0 5 "10:00:00"
    rfl rfl (by simp)).2.2 rfl rfl

/-- C6 (counterexample): a mailbox payload whose aqi field holds the
non-numeric string "abc" makes the poller's int() conversion raise — an
uncaught exception, i.e. a hard failure of the live view — so the poller
does not recover from every field-level parse error. -/
theorem c6_counterexample :
    pollerStep ⟨⟨some (.vStr "abc"), some (.vInt 25), some (.vInt 60), some (.vInt 100)⟩,
      true, []⟩ "12:00:00" = none := by decide

/-- C6 (amended): the poller recovers by defaulting when fields are absent
and never raises as long as the aqi and mq135 fields of the mailbox slot
are absent or numeric; a non-numeric value in those fields, however, makes
the invocation raise. -/
theorem c6_amended (s : AppState) (now : String)
    (ha : isNumField s.latest_data.aqi = true)
    (hm : isNumField s.latest_data.mq135 = true) :
    (pollerStep s now).isSome = true := by
  obtain ⟨a, ha2, -⟩ := numField_get s.latest_data.aqi ha
  obtain ⟨m, hm2, -⟩ := numField_get s.latest_data.mq135 hm
  unfold pollerStep
  rw [ha2, hm2]
  by_cases hpa : 0 < a <;> simp [pyToInt, pyGtZero, hpa]

theorem c6_amended_witness : (pollerStep initialState "00:00:01").isSome = true :=
  c6_amended initialState "00:00:01" rfl rfl

/-- C7: in the history view's timestamp pipeline, unparseable timestamps
are dropped rather than defaulted, a naive timestamp is parsed as UTC
exactly like its Z-suffixed counterpart, and the example inputs
2024-01-01T00:00:00 (naive) and 2024-01-01T00:00:00Z both normalize to an
Asia/Kolkata wall clock exceeding the input wall clock by exactly the 5:30
offset, reading 05:30:00 local time. -/
theorem c7 :
    (∀ (pre post : List SbRow) (r : SbRow), to_datetime_utc r.created_at = none →
        normalizeRows (pre ++ r :: post) = normalizeRows pre ++ normalizeRows post) ∧
    (∀ dt : DateTime, to_datetime_utc (.naive dt) = to_datetime_utc (.zulu dt)) ∧
    (toLocalWall (DateTime.toEpoch ⟨2024, 1, 1, 0, 0, 0⟩)
        - DateTime.toEpoch ⟨2024, 1, 1, 0, 0, 0⟩ = kolkataOffset ∧
      secondsOfDay (toLocalWall (DateTime.toEpoch ⟨2024, 1, 1, 0, 0, 0⟩)) = 5 * 3600 + 30 * 60 ∧
      (to_datetime_utc (.naive ⟨2024, 1, 1, 0, 0, 0⟩)).map toLocalWall
        = (to_datetime_utc (.zulu ⟨2024, 1, 1, 0, 0, 0⟩)).map toLocalWall) := by
  refine ⟨?_, fun dt => rfl, by decide, by decide, rfl⟩
  intro pre post r h
  simp [normalizeRows, List.filterMap_append, List.filterMap_cons, h]

theorem c7_witness :
    normalizeRows ([] ++ ⟨1, .junk "not-a-date", 7, 2, 3⟩ :: []) =
      normalizeRows [] ++ normalizeRows [] :=
  c7.1 [] [] ⟨1, .junk "not-a-date", 7, 2, 3⟩ rfl

end Aqi
